import Mathlib

/-!
Verification development for the UFS-Repo-metrics pull-request turnaround
pipeline (`pr_turnaround.py` and its single-repo variant
`ufs-wm-turnaround.py`).  The scripts fetch closed pull requests from a
REST API page by page, derive per-PR turnaround records, print summary
statistics of the merged subset, and render a bar chart.

The embedding below models:
  * Python truthiness of an optional string field (`if closed:`,
    `bool(merged)`) as `truthy`;
  * `datetime.fromisoformat(s.replace("Z", "+00:00"))` restricted to
    second-precision UTC timestamps as `parseISO`, returning seconds since
    the Unix epoch (the proleptic Gregorian calendar via `daysFromCivil`);
  * Python `round(x, 2)` (round half to even) on exact rationals as
    `round2`;
  * `compute_turnaround` as a fallible (`Option`) function: a timestamp
    that fails to parse raises in Python, which we model as `none`;
  * the pagination loop `fetch_prs_from_url` over an abstract page oracle
    `pages : Nat -> PageResponse` standing for `requests.get` on each page
    number, recording the list of requested page numbers and the printed
    error message (the fixed `sleep(0.5)` between pages has no effect on
    the data and is not modelled);
  * the pandas statistics used by `summarize` (`mean`, `median`, `min`,
    `max` of a possibly empty series) with NaN rendered as `none`;
  * the label-to-color selection of `plot_turnaround`.
-/

/-- Python truthiness of a `str | None` value: `None` and the empty string
are falsy, every other string is truthy.  Models `if closed:` and
`bool(merged)` in `compute_turnaround`. -/
def truthy : Option String → Bool
  | none => false
  | some s => s ≠ ""

/-- Value of a decimal digit character, `none` on a non-digit. -/
def digitVal (c : Char) : Option Nat :=
  if c.isDigit then some (c.toNat - 48) else none

/-- Two-digit decimal number from two characters. -/
def num2 (a b : Char) : Option Nat := do
  let x ← digitVal a
  let y ← digitVal b
  pure (10 * x + y)

/-- Four-digit decimal number from four characters. -/
def num4 (a b c d : Char) : Option Nat := do
  let x ← digitVal a
  let y ← digitVal b
  let z ← digitVal c
  let w ← digitVal d
  pure (1000 * x + 100 * y + 10 * z + w)

/-- Days from the civil epoch 1970-01-01 of a proleptic Gregorian date
(Howard Hinnant's `days_from_civil` algorithm), the day-arithmetic
underlying Python's `datetime`. -/
def daysFromCivil (y m d : Int) : Int :=
  let yy := if m ≤ 2 then y - 1 else y
  let era := Int.fdiv yy 400
  let yoe := yy - era * 400
  let mp := Int.fmod (m + 9) 12
  let doy := Int.fdiv (153 * mp + 2) 5 + d - 1
  let doe := yoe * 365 + Int.fdiv yoe 4 - Int.fdiv yoe 100 + doy
  era * 146097 + doe - 719468

/-- Model of `datetime.fromisoformat(s.replace("Z", "+00:00"))` for the
second-precision UTC timestamps the GitHub API returns
(`YYYY-MM-DDTHH:MM:SS` followed by nothing, `Z`, or `+00:00`), yielding
seconds since the Unix epoch; any other string is a parse failure
(Python raises `ValueError`). -/
def parseISO (s : String) : Option Int :=
  match s.data with
  | y1 :: y2 :: y3 :: y4 :: '-' :: m1 :: m2 :: '-' :: d1 :: d2 :: 'T' ::
      h1 :: h2 :: ':' :: mi1 :: mi2 :: ':' :: s1 :: s2 :: rest =>
    if rest = [] ∨ rest = ['Z'] ∨ rest = ['+', '0', '0', ':', '0', '0'] then
      match num4 y1 y2 y3 y4, num2 m1 m2, num2 d1 d2,
            num2 h1 h2, num2 mi1 mi2, num2 s1 s2 with
      | some y, some mo, some da, some h, some mi, some se =>
        if 1 ≤ mo ∧ mo ≤ 12 ∧ 1 ≤ da ∧ da ≤ 31 ∧ h ≤ 23 ∧ mi ≤ 59 ∧ se ≤ 59 then
          some (daysFromCivil y mo da * 86400 + (h * 3600 + mi * 60 + se))
        else none
      | _, _, _, _, _, _ => none
    else none
  | _ => none

/-- Round a rational to the nearest integer, halves to the even neighbour:
the rounding mode of Python's builtin `round`.  The fractional part
`q - ⌊q⌋ = r / q.den` (with `r := q.num - ⌊q⌋ * q.den`) is compared with
`1 / 2` through the equivalent integer comparison of `2 * r` with `q.den`,
keeping the definition evaluable by kernel reduction. -/
def roundHalfEven (q : ℚ) : ℤ :=
  let f := q.floor
  let r := q.num - f * q.den
  if 2 * r < (q.den : ℤ) then f
  else if (q.den : ℤ) < 2 * r then f + 1
  else if f % 2 = 0 then f else f + 1

/-- Model of Python `round(x, 2)` on exact rationals: round half to even
at two decimal places, `(roundHalfEven (q * 100)) / 100`.  Written with
`mkRat` (and `q * 100` as `mkRat (q.num * 100) q.den`) so that it is
evaluable by kernel reduction; `round2_eq` below restates it with `*`
and `/`. -/
def round2 (q : ℚ) : ℚ :=
  mkRat (roundHalfEven (mkRat (q.num * 100) q.den)) 100

/-- A label object as returned by the API; `compute_turnaround` reads its
`name` field. -/
structure Label where
  name : String
deriving DecidableEq, Repr

/-- A raw pull-request record as consumed by `compute_turnaround`:
`created_at` is always a string, `closed_at` and `merged_at` are
`str | None` JSON fields. -/
structure RawPR where
  number : Nat
  title : String
  user : String
  created_at : String
  closed_at : Option String
  merged_at : Option String
  labels : List Label
deriving DecidableEq, Repr

/-- A derived turnaround record, one row of the DataFrame built by
`compute_turnaround`; timestamps are parsed to epoch seconds. -/
structure TurnaroundRecord where
  number : Nat
  title : String
  user : String
  created_at : Int
  closed_at : Int
  merged : Bool
  labels : List String
  turnaround_hours : ℚ
deriving DecidableEq, Repr

/-- The row `compute_turnaround` appends for a closed PR, given the parsed
creation and closing timestamps. -/
def mkRecord (pr : RawPR) (created closedDt : Int) : TurnaroundRecord :=
  { number := pr.number
    title := pr.title
    user := pr.user
    created_at := created
    closed_at := closedDt
    merged := truthy pr.merged_at
    labels := pr.labels.map (fun l => l.name)
    turnaround_hours := round2 (mkRat (closedDt - created) 3600) }

/-- `compute_turnaround` from `pr_turnaround.py` lines 51-71 (identical in
`ufs-wm-turnaround.py` lines 37-57): parse `created_at`, skip records whose
`closed_at` is falsy, otherwise parse `closed_at`, and emit a row with
`merged = bool(merged_at)` and the rounded turnaround in hours.  A parse
failure (Python `ValueError`) makes the whole computation fail. -/
def compute_turnaround : List RawPR → Option (List TurnaroundRecord)
  | [] => some []
  | pr :: rest =>
    match parseISO pr.created_at with
    | none => none
    | some created =>
      if truthy pr.closed_at then
        match parseISO (pr.closed_at.getD "") with
        | none => none
        | some closedDt =>
          match compute_turnaround rest with
          | none => none
          | some recs => some (mkRecord pr created closedDt :: recs)
      else
        compute_turnaround rest

/-- The response of `requests.get` for one page, as far as the fetch loop
inspects it: either a non-success HTTP status with a response body
(`response.status_code != 200`), or a JSON list of raw records. -/
inductive PageResponse where
  | fail (status : Nat) (body : String)
  | ok (data : List RawPR)
deriving DecidableEq, Repr

/-- What one run of the pagination loop produces: the accumulated records,
the page numbers requested in order, and the error message printed on a
non-success response (`none` when no request failed). -/
structure FetchResult where
  prs : List RawPR
  reqPages : List Nat
  error : Option String
deriving DecidableEq, Repr

/-- The error line `print(f"Error: {response.status_code} - {response.text}")`
emits for a failed page request. -/
def fetchErrMsg (status : Nat) (body : String) : String :=
  s!"Error: {status} - {body}"

/-- The body of the `for page in range(1, max_pages + 1)` loop of
`fetch_prs_from_url` (lines 35-48): `fuel` is the number of remaining loop
iterations, `page` the next page number, `acc` the records accumulated so
far (`prs`).  A non-success response prints an error and breaks; an empty
page breaks; reaching `total_limit` breaks after extending; otherwise the
loop continues with the next page (the `sleep(0.5)` has no effect on the
data).  `pages` abstracts the HTTP endpoint: the response to each page
number. -/
def fetchGo (pages : Nat → PageResponse) (total_limit : Nat) :
    Nat → Nat → List RawPR → FetchResult
  | 0, _, acc => ⟨acc, [], none⟩
  | fuel + 1, page, acc =>
    match pages page with
    | .fail status body => ⟨acc, [page], some (fetchErrMsg status body)⟩
    | .ok data =>
      if data.isEmpty then ⟨acc, [page], none⟩
      else if total_limit ≤ acc.length + data.length then
        ⟨acc ++ data, [page], none⟩
      else
        let r := fetchGo pages total_limit fuel (page + 1) (acc ++ data)
        ⟨r.prs, page :: r.reqPages, r.error⟩

/-- `fetch_prs_from_url` (lines 32-49): run the loop for
`max_pages = (total_limit + per_page - 1) // per_page` iterations starting
at page 1, then return `prs[:total_limit]`. -/
def fetch_prs_from_url (pages : Nat → PageResponse)
    (per_page total_limit : Nat) : List RawPR :=
  (fetchGo pages total_limit ((total_limit + per_page - 1) / per_page)
    1 []).prs.take total_limit

/-- The page numbers `fetch_prs_from_url` actually requests, in order. -/
def fetchRequestedPages (pages : Nat → PageResponse)
    (per_page total_limit : Nat) : List Nat :=
  (fetchGo pages total_limit ((total_limit + per_page - 1) / per_page)
    1 []).reqPages

/-- The error message `fetch_prs_from_url` prints, `none` when every
request succeeded. -/
def fetchError (pages : Nat → PageResponse)
    (per_page total_limit : Nat) : Option String :=
  (fetchGo pages total_limit ((total_limit + per_page - 1) / per_page)
    1 []).error

/-- The record list a page response contributes (`data` for a success,
nothing for a failure). -/
def pageData (pages : Nat → PageResponse) (page : Nat) : List RawPR :=
  match pages page with
  | .fail _ _ => []
  | .ok data => data

/-- pandas `Series.mean` with NaN rendered as `none`: the mean of an empty
series is NaN. -/
def pandasMean (xs : List ℚ) : Option ℚ :=
  if xs.isEmpty then none else some (xs.sum / xs.length)

/-- pandas `Series.median` with NaN rendered as `none`: sort, take the
middle element (odd length) or the mean of the two middle elements (even
length); the median of an empty series is NaN. -/
def pandasMedian (xs : List ℚ) : Option ℚ :=
  if xs.isEmpty then none
  else
    let sorted := xs.mergeSort (fun a b => a ≤ b)
    let n := xs.length
    if n % 2 = 1 then some (sorted.getD (n / 2) 0)
    else some ((sorted.getD (n / 2 - 1) 0 + sorted.getD (n / 2) 0) / 2)

/-- The overall statistics `summarize` prints (lines 73-84): the merged
subset `df[df["merged"]]` and the count, mean, median, min and max of its
`turnaround_hours` column.  NaN (empty subset) is rendered as `none`; the
per-author groupby breakdown is not claimed and not modelled. -/
structure AggregateSummary where
  mergedCount : Nat
  meanH : Option ℚ
  medianH : Option ℚ
  minH : Option ℚ
  maxH : Option ℚ
deriving DecidableEq, Repr

/-- `summarize` from `pr_turnaround.py` lines 73-84 (statistics only). -/
def summarize (df : List TurnaroundRecord) : AggregateSummary :=
  let merged := df.filter (fun r => r.merged)
  let hours := merged.map (fun r => r.turnaround_hours)
  { mergedCount := merged.length
    meanH := pandasMean hours
    medianH := pandasMedian hours
    minH := hours.min?
    maxH := hours.max? }

/-- The fixed label-to-color table `LABEL_COLORS` (lines 14-19), as an
association list in Python dict iteration (= insertion) order. -/
def LABEL_COLORS : List (String × String) :=
  [("bug", "#E24A33"),
   ("enhancement", "#348ABD"),
   ("documentation", "#988ED5"),
   ("default", "#4C72B0")]

/-- The mark color of one plotted record (lines 93-96):
`label = next((l for l in labels if l in LABEL_COLORS), "default")`
followed by `LABEL_COLORS[label]`.  `List.lookup l LABEL_COLORS` models
the dict membership test `l in LABEL_COLORS` (via `isSome`) and the
indexing `LABEL_COLORS[label]` (the `getD ""` default is never hit:
`"default"` is a key of the table). -/
def markColor (labels : List String) : String :=
  let label := (labels.find?
    (fun l => (List.lookup l LABEL_COLORS).isSome)).getD "default"
  (List.lookup label LABEL_COLORS).getD ""

/-! ### Sample data

Concrete records used to instantiate the theorems: the worked example from
the specification (created 2024-01-01T00:00:00Z, closed and merged
2024-01-02T12:00:00Z), a still-open PR, records with empty-string
timestamp fields, and small page oracles for the fetch loop. -/

/-- The specification's worked example PR. -/
def samplePR : RawPR :=
  { number := 1, title := "Add feature", user := "alice",
    created_at := "2024-01-01T00:00:00Z",
    closed_at := some "2024-01-02T12:00:00Z",
    merged_at := some "2024-01-02T12:00:00Z",
    labels := [] }

/-- The row `compute_turnaround` derives from `samplePR`
(`1704067200` and `1704196800` are the two epoch timestamps). -/
def sampleRec : TurnaroundRecord := mkRecord samplePR 1704067200 1704196800

/-- A still-open PR: `closed_at` and `merged_at` are null. -/
def openPR : RawPR :=
  { number := 2, title := "WIP", user := "bob",
    created_at := "2024-01-03T00:00:00Z",
    closed_at := none, merged_at := none, labels := [] }

/-- A PR whose `closed_at` field is present but the empty string:
non-null yet falsy in Python. -/
def emptyClosedPR : RawPR :=
  { number := 3, title := "Odd", user := "carol",
    created_at := "2024-01-01T00:00:00Z",
    closed_at := some "", merged_at := none, labels := [] }

/-- A closed PR whose `merged_at` field is present but the empty string:
non-null yet falsy in Python. -/
def emptyMergedPR : RawPR :=
  { number := 4, title := "Odd merge", user := "dave",
    created_at := "2024-01-01T00:00:00Z",
    closed_at := some "2024-01-02T12:00:00Z",
    merged_at := some "", labels := [] }

/-- The row `compute_turnaround` derives from `emptyMergedPR`. -/
def emptyMergedRec : TurnaroundRecord :=
  mkRecord emptyMergedPR 1704067200 1704196800

/-- A closed-but-not-merged PR (`merged_at` null). -/
def closedUnmergedPR : RawPR :=
  { number := 5, title := "Rejected", user := "erin",
    created_at := "2024-01-01T00:00:00Z",
    closed_at := some "2024-01-02T12:00:00Z",
    merged_at := none, labels := [] }

/-- The row `compute_turnaround` derives from `closedUnmergedPR`;
its `merged` flag is `false`. -/
def closedUnmergedRec : TurnaroundRecord :=
  mkRecord closedUnmergedPR 1704067200 1704196800

/-- A minimal raw record used as page payload for the fetch oracles. -/
def blankPR : RawPR :=
  { number := 0, title := "", user := "", created_at := "",
    closed_at := none, merged_at := none, labels := [] }

/-- A page oracle on which every page returns 100 records. -/
def c4Pages : Nat → PageResponse := fun _ => .ok (List.replicate 100 blankPR)

/-- A page oracle whose first page is short (1 record) but non-empty, and
whose later pages are empty. -/
def c5Pages : Nat → PageResponse :=
  fun p => if p = 1 then .ok [blankPR] else .ok []

/-- A page oracle whose first page succeeds with one record and whose
later pages fail with HTTP 403. -/
def c6Pages : Nat → PageResponse :=
  fun p => if p = 1 then .ok [blankPR] else .fail 403 "rate limited"

/-! ### Helper lemmas -/

theorem ratFloor_eq_intFloor (q : ℚ) : q.floor = ⌊q⌋ :=
  (Rat.floor_def' q).trans Rat.floor_def.symm

theorem roundHalfEven_nonneg (q : ℚ) (h : 0 ≤ q) : 0 ≤ roundHalfEven q := by
  have hf : 0 ≤ q.floor := by
    rw [ratFloor_eq_intFloor]
    exact Int.floor_nonneg.mpr h
  unfold roundHalfEven
  dsimp only
  split
  · exact hf
  · split
    · omega
    · split <;> omega

theorem mkRat_cast_div (n : ℤ) (d : ℕ) : (mkRat n d : ℚ) = (n : ℚ) / (d : ℚ) := by
  rw [Rat.mkRat_eq_divInt, Rat.divInt_eq_div]
  push_cast
  rfl

theorem round2_eq (q : ℚ) : round2 q = (roundHalfEven (q * 100) : ℚ) / 100 := by
  have hden : (q.den : ℚ) ≠ 0 := Nat.cast_ne_zero.mpr q.den_nz
  have hq : (mkRat (q.num * 100) q.den : ℚ) = q * 100 := by
    rw [mkRat_cast_div]
    push_cast
    rw [mul_div_right_comm, Rat.num_div_den]
  rw [round2, hq, mkRat_cast_div]
  norm_num

theorem round2_nonneg (q : ℚ) (h : 0 ≤ q) : 0 ≤ round2 q := by
  rw [round2_eq]
  apply div_nonneg _ (by norm_num)
  exact_mod_cast roundHalfEven_nonneg _ (by positivity)

/-- Every output row of `compute_turnaround` corresponds, in order, to an
input record with a truthy `closed_at`: projecting each side to
(number, title, merged-flag) gives equal lists. -/
theorem compute_turnaround_shape :
    ∀ (prs : List RawPR) (out : List TurnaroundRecord),
      compute_turnaround prs = some out →
      out.map (fun r => (r.number, r.title, r.merged)) =
        (prs.filter (fun pr => truthy pr.closed_at)).map
          (fun pr => (pr.number, pr.title, truthy pr.merged_at)) := by
  intro prs
  induction prs with
  | nil =>
    intro out h
    simp only [compute_turnaround, Option.some.injEq] at h
    subst h
    simp
  | cons pr rest ih =>
    intro out h
    rw [compute_turnaround] at h
    cases hc : parseISO pr.created_at with
    | none => rw [hc] at h; exact absurd h (by simp)
    | some created =>
      rw [hc] at h
      dsimp only at h
      by_cases ht : truthy pr.closed_at
      · rw [if_pos ht] at h
        cases hcd : parseISO (pr.closed_at.getD "") with
        | none => rw [hcd] at h; exact absurd h (by simp)
        | some closedDt =>
          rw [hcd] at h
          cases hrest : compute_turnaround rest with
          | none => rw [hrest] at h; exact absurd h (by simp)
          | some recs =>
            rw [hrest] at h
            simp only [Option.some.injEq] at h
            subst h
            simp only [List.map_cons, List.filter_cons, ht, if_true]
            rw [ih recs hrest]
            simp [mkRecord]
      · rw [if_neg ht] at h
        simp only [List.filter_cons, ht]
        exact ih out h

/-- Every output row of `compute_turnaround` is `mkRecord` applied to some
input record and its parsed timestamps. -/
theorem compute_turnaround_mem :
    ∀ (prs : List RawPR) (out : List TurnaroundRecord),
      compute_turnaround prs = some out →
      ∀ r ∈ out, ∃ pr created closedDt, pr ∈ prs ∧
        parseISO pr.created_at = some created ∧
        truthy pr.closed_at = true ∧
        parseISO (pr.closed_at.getD "") = some closedDt ∧
        r = mkRecord pr created closedDt := by
  intro prs
  induction prs with
  | nil =>
    intro out h r hr
    simp only [compute_turnaround, Option.some.injEq] at h
    subst h
    simp at hr
  | cons pr rest ih =>
    intro out h r hr
    rw [compute_turnaround] at h
    cases hc : parseISO pr.created_at with
    | none => rw [hc] at h; exact absurd h (by simp)
    | some created =>
      rw [hc] at h
      dsimp only at h
      by_cases ht : truthy pr.closed_at
      · rw [if_pos ht] at h
        cases hcd : parseISO (pr.closed_at.getD "") with
        | none => rw [hcd] at h; exact absurd h (by simp)
        | some closedDt =>
          rw [hcd] at h
          cases hrest : compute_turnaround rest with
          | none => rw [hrest] at h; exact absurd h (by simp)
          | some recs =>
            rw [hrest] at h
            simp only [Option.some.injEq] at h
            subst h
            rcases List.mem_cons.mp hr with hr | hr
            · exact ⟨pr, created, closedDt, List.mem_cons_self pr rest,
                hc, ht, hcd, hr⟩
            · obtain ⟨pr', c', cd', hmem, h1, h2, h3, h4⟩ := ih recs hrest r hr
              exact ⟨pr', c', cd', List.mem_cons_of_mem pr hmem, h1, h2, h3, h4⟩
      · rw [if_neg ht] at h
        obtain ⟨pr', c', cd', hmem, h1, h2, h3, h4⟩ := ih out h r hr
        exact ⟨pr', c', cd', List.mem_cons_of_mem pr hmem, h1, h2, h3, h4⟩

/-- The turnaround value stored by `mkRecord`, restated with `/` on ℚ. -/
theorem mkRecord_turnaround (pr : RawPR) (created closedDt : Int) :
    (mkRecord pr created closedDt).turnaround_hours =
      round2 (((closedDt - created : ℤ) : ℚ) / 3600) := by
  simp only [mkRecord]
  rw [mkRat_cast_div]
  norm_num

/-- The pages requested by the loop are consecutive, starting at the start
page, and at most one per remaining iteration. -/
theorem fetchGo_reqPages_range' (pages : Nat → PageResponse) (L : Nat) :
    ∀ (fuel page : Nat) (acc : List RawPR),
      ∃ n, (fetchGo pages L fuel page acc).reqPages = List.range' page n ∧
        n ≤ fuel := by
  intro fuel
  induction fuel with
  | zero => intro page acc; exact ⟨0, rfl, Nat.le_refl 0⟩
  | succ fuel ih =>
    intro page acc
    rw [fetchGo]
    cases hp : pages page with
    | fail s b => exact ⟨1, by simp [List.range'], Nat.le_add_left 1 fuel⟩
    | ok data =>
      by_cases hemp : data.isEmpty
      · exact ⟨1, by simp [hemp, List.range'], Nat.le_add_left 1 fuel⟩
      · by_cases hlim : L ≤ acc.length + data.length
        · exact ⟨1, by simp [hemp, hlim, List.range'], Nat.le_add_left 1 fuel⟩
        · obtain ⟨n, hn, hle⟩ := ih (page + 1) (acc ++ data)
          refine ⟨n + 1, ?_, by omega⟩
          simp only [hemp, hlim, if_false]
          rw [List.range'_succ]
          simpa using hn

/-- The loop never requests more pages than it has iterations left. -/
theorem fetchGo_reqPages_length (pages : Nat → PageResponse) (L : Nat)
    (fuel page : Nat) (acc : List RawPR) :
    (fetchGo pages L fuel page acc).reqPages.length ≤ fuel := by
  obtain ⟨n, hn, hle⟩ := fetchGo_reqPages_range' pages L fuel page acc
  rw [hn, List.length_range']
  exact hle

/-- If page `k` responds with an empty list or a failure, the loop started
at a page `≤ k` never requests any page beyond `k`. -/
theorem fetchGo_stops_at (pages : Nat → PageResponse) (L k : Nat)
    (hk : pages k = .ok [] ∨ ∃ s b, pages k = .fail s b) :
    ∀ (fuel page : Nat) (acc : List RawPR), page ≤ k →
      ∀ j ∈ (fetchGo pages L fuel page acc).reqPages, j ≤ k := by
  intro fuel
  induction fuel with
  | zero => intro page acc _ j hj; simp [fetchGo] at hj
  | succ fuel ih =>
    intro page acc hpk j hj
    cases hp : pages page with
    | fail s b =>
      rw [fetchGo, hp] at hj
      simp at hj
      omega
    | ok data =>
      rw [fetchGo, hp] at hj
      by_cases hemp : data.isEmpty
      · simp [hemp] at hj; omega
      · by_cases hlim : L ≤ acc.length + data.length
        · simp [hemp, hlim] at hj; omega
        · simp only [hemp, hlim, if_false, List.mem_cons] at hj
          rcases hj with hj | hj
          · omega
          · rename_i hj
            have hne : page ≠ k := by
              intro he
              rcases hk with hk2 | ⟨s, b, hk2⟩
              · rw [he, hk2] at hp
                have hd : ([] : List RawPR) = data := by injection hp
                rw [← hd] at hemp
                exact hemp rfl
              · rw [he, hk2] at hp
                exact absurd hp (by simp)
            exact ih (page + 1) (acc ++ data) (by omega) j hj

/-- If a failing page `k` is actually requested, the loop reports the
corresponding error message, returns exactly the records accumulated from
the successful pages before it (pages `page, …, k-1`), and that
accumulation stays below the limit. -/
theorem fetchGo_fail_spec (pages : Nat → PageResponse) (L k : Nat)
    (s : Nat) (b : String) (hk : pages k = .fail s b) :
    ∀ (fuel page : Nat) (acc : List RawPR), acc.length < L →
      k ∈ (fetchGo pages L fuel page acc).reqPages →
      (fetchGo pages L fuel page acc).error = some (fetchErrMsg s b) ∧
      (fetchGo pages L fuel page acc).prs =
        acc ++ (List.range' page (k - page)).flatMap (pageData pages) ∧
      (fetchGo pages L fuel page acc).prs.length < L := by
  intro fuel
  induction fuel with
  | zero => intro page acc _ hmem; simp [fetchGo] at hmem
  | succ fuel ih =>
    intro page acc hacc hmem
    cases hp : pages page with
    | fail s' b' =>
      rw [fetchGo, hp] at hmem ⊢
      simp only [List.mem_singleton] at hmem
      subst hmem
      rw [hp] at hk
      obtain ⟨hs, hb⟩ := PageResponse.fail.injEq .. ▸ hk
      subst hs
      subst hb
      simp [hacc]
    | ok data =>
      rw [fetchGo, hp] at hmem ⊢
      have hne : page ≠ k := by
        intro he
        subst he
        rw [hp] at hk
        exact absurd hk (by simp)
      by_cases hemp : data.isEmpty
      · simp [hemp] at hmem
        omega
      · by_cases hlim : L ≤ acc.length + data.length
        · simp [hemp, hlim] at hmem
          omega
        · simp only [hemp, hlim, if_false, List.mem_cons] at hmem
          rcases hmem with hmem | hmem
          · omega
          · rename_i hmem
            have hklo : page + 1 ≤ k := by
              obtain ⟨n, hn, _⟩ :=
                fetchGo_reqPages_range' pages L fuel (page + 1) (acc ++ data)
              rw [hn] at hmem
              have hb2 := List.mem_range'_1.mp
                (show k ∈ List.range' (page + 1) n from hmem)
              omega
            have hlen : (acc ++ data).length < L := by
              rw [List.length_append]
              omega
            obtain ⟨he, hprs, hl⟩ := ih (page + 1) (acc ++ data) hlen hmem
            simp only [hemp, hlim, if_false]
            refine ⟨he, ?_, hl⟩
            rw [hprs]
            have hkp : k - page = (k - (page + 1)) + 1 := by omega
            rw [hkp, List.range'_succ, List.flatMap_cons]
            simp [pageData, hp]

example : parseISO "1970-01-01T00:00:00Z" = some 0 := by decide
example : parseISO "2024-01-01T00:00:00Z" = some 1704067200 := by decide
example : parseISO "2024-01-02T12:00:00Z" = some 1704196800 := by decide
example : parseISO "2024-01-02T12:00:00+00:00" = some 1704196800 := by decide
example : parseISO "" = none := by decide
example : round2 36 = 36 := by decide
example : round2 (mkRat 13 2) = mkRat 13 2 := by decide
example : round2 (mkRat 1 3) = mkRat 33 100 := by decide
example : roundHalfEven (mkRat 1 2) = 0 := by decide
example : roundHalfEven (mkRat 3 2) = 2 := by decide
example : roundHalfEven (mkRat 5 2) = 2 := by decide
example : roundHalfEven (mkRat (-1) 2) = 0 := by decide
example : roundHalfEven (mkRat (-3) 2) = -2 := by decide

/-- A truthy optional string is in particular not `none`. -/
theorem truthy_ne_none {o : Option String} (h : truthy o = true) :
    o ≠ none := by
  intro he
  rw [he] at h
  simp [truthy] at h

/-- The merged flags of the output rows are, in order, the truthiness of
the merge timestamps of the input records with a truthy closing
timestamp. -/
theorem compute_turnaround_merged_map (prs : List RawPR)
    (out : List TurnaroundRecord) (h : compute_turnaround prs = some out) :
    out.map (fun r => r.merged) =
      (prs.filter (fun pr => truthy pr.closed_at)).map
        (fun pr => truthy pr.merged_at) := by
  have hs := compute_turnaround_shape prs out h
  have h2 := congrArg (List.map (fun t : Nat × String × Bool => t.2.2)) hs
  simpa [List.map_map, Function.comp] using h2

/-! ### Claim theorems -/

/-- C1: for every record the Calculator outputs, `turnaround_hours` equals
`round((closed_at - created_at).total_seconds() / 3600, 2)`, and is
nonnegative whenever `closed_at >= created_at`; in particular the
specification's worked example (created 2024-01-01T00:00:00Z, closed and
merged 2024-01-02T12:00:00Z) yields `turnaround_hours = 36.0` and
`merged = true`. -/
theorem c1_turnaround_formula :
    (∀ (prs : List RawPR) (out : List TurnaroundRecord),
        compute_turnaround prs = some out →
        ∀ r ∈ out,
          r.turnaround_hours =
            round2 (((r.closed_at - r.created_at : ℤ) : ℚ) / 3600) ∧
          (r.created_at ≤ r.closed_at → 0 ≤ r.turnaround_hours)) ∧
    compute_turnaround [samplePR] = some [sampleRec] ∧
    sampleRec.turnaround_hours = 36 ∧ sampleRec.merged = true := by
  refine ⟨?_, by decide, by decide, by decide⟩
  intro prs out h r hr
  obtain ⟨pr, created, closedDt, hmem, hc, ht, hcd, hrec⟩ :=
    compute_turnaround_mem prs out h r hr
  subst hrec
  refine ⟨mkRecord_turnaround pr created closedDt, ?_⟩
  intro hle
  have hle' : created ≤ closedDt := hle
  rw [mkRecord_turnaround]
  apply round2_nonneg
  apply div_nonneg _ (by norm_num : (0 : ℚ) ≤ 3600)
  have h0 : (0 : ℤ) ≤ closedDt - created := by omega
  exact_mod_cast h0

/-- Witness for C1 at the specification's worked example. -/
theorem c1_turnaround_formula_witness :
    sampleRec.turnaround_hours =
      round2 (((sampleRec.closed_at - sampleRec.created_at : ℤ) : ℚ) / 3600) ∧
    0 ≤ sampleRec.turnaround_hours :=
  have h := c1_turnaround_formula.1 [samplePR] [sampleRec] (by decide)
    sampleRec (by simp)
  ⟨h.1, h.2 (by decide)⟩

/-- C2 (counterexample): a record whose `closed_at` is the empty string has
a non-null closing timestamp, yet the Calculator drops it — the output has
0 records where the claim predicts cardinality equality. -/
theorem c2_cardinality_counterexample :
    (∀ pr ∈ [emptyClosedPR], pr.closed_at ≠ none) ∧
    compute_turnaround [emptyClosedPR] = some [] ∧
    ([] : List TurnaroundRecord).length ≠ ([emptyClosedPR] : List RawPR).length := by
  decide

/-- C2 (amended): the Calculator keeps exactly the records whose closing
timestamp is truthy (non-null and non-empty); the output cardinality is at
most the input cardinality, with equality iff every input record's closing
timestamp is truthy. -/
theorem c2_cardinality (prs : List RawPR) (out : List TurnaroundRecord)
    (h : compute_turnaround prs = some out) :
    out.length = (prs.filter (fun pr => truthy pr.closed_at)).length ∧
    out.length ≤ prs.length ∧
    (out.length = prs.length ↔ ∀ pr ∈ prs, truthy pr.closed_at) := by
  have hs := compute_turnaround_shape prs out h
  have hlen : out.length =
      (prs.filter (fun pr => truthy pr.closed_at)).length := by
    have h2 := congrArg List.length hs
    simpa using h2
  refine ⟨hlen, ?_, ?_⟩
  · rw [hlen]
    exact List.length_filter_le _ _
  · rw [hlen]
    exact List.filter_length_eq_length

/-- Witness for C2 (amended) on a two-record input with one open PR. -/
theorem c2_cardinality_witness :
    ([sampleRec] : List TurnaroundRecord).length =
      ([samplePR, openPR].filter (fun pr => truthy pr.closed_at)).length ∧
    ([sampleRec] : List TurnaroundRecord).length ≤
      ([samplePR, openPR] : List RawPR).length ∧
    (([sampleRec] : List TurnaroundRecord).length =
        ([samplePR, openPR] : List RawPR).length ↔
      ∀ pr ∈ [samplePR, openPR], truthy pr.closed_at) :=
  c2_cardinality [samplePR, openPR] [sampleRec] (by decide)

/-- C3 (counterexample): a record whose `merged_at` is the empty string has
a present (non-null) merge timestamp, yet the Calculator sets
`merged = false`. -/
theorem c3_merged_iff_counterexample :
    emptyMergedPR.merged_at ≠ none ∧
    compute_turnaround [emptyMergedPR] = some [emptyMergedRec] ∧
    emptyMergedRec.merged = false := by
  decide

/-- C3 (amended): the merged flag is true iff the record's merge timestamp
is truthy (non-null and non-empty), and every output record — in
particular every merged one — derives from an input record with a truthy,
hence non-null, closing timestamp. -/
theorem c3_merged_truthy (prs : List RawPR) (out : List TurnaroundRecord)
    (h : compute_turnaround prs = some out) :
    out.map (fun r => r.merged) =
      (prs.filter (fun pr => truthy pr.closed_at)).map
        (fun pr => truthy pr.merged_at) ∧
    ∀ r ∈ out, ∃ pr, pr ∈ prs ∧ pr.closed_at ≠ none ∧
      truthy pr.closed_at = true ∧ r.merged = truthy pr.merged_at := by
  refine ⟨compute_turnaround_merged_map prs out h, ?_⟩
  intro r hr
  obtain ⟨pr, created, closedDt, hmem, hc, ht, hcd, hrec⟩ :=
    compute_turnaround_mem prs out h r hr
  subst hrec
  exact ⟨pr, hmem, truthy_ne_none ht, ht, rfl⟩

/-- Witness for C3 (amended) on a two-record input. -/
theorem c3_merged_truthy_witness :
    ([sampleRec] : List TurnaroundRecord).map (fun r => r.merged) =
      ([samplePR, openPR].filter (fun pr => truthy pr.closed_at)).map
        (fun pr => truthy pr.merged_at) ∧
    ∀ r ∈ ([sampleRec] : List TurnaroundRecord), ∃ pr,
      pr ∈ [samplePR, openPR] ∧ pr.closed_at ≠ none ∧
      truthy pr.closed_at = true ∧ r.merged = truthy pr.merged_at :=
  c3_merged_truthy [samplePR, openPR] [sampleRec] (by decide)

/-- C9: the merged flag tests Python truthiness of `merged_at`, not mere
presence: the output flags are the truthiness of the merge timestamps, the
empty string is present but falsy, and `None` is falsy. -/
theorem c9_merged_truthiness :
    (∀ (prs : List RawPR) (out : List TurnaroundRecord),
        compute_turnaround prs = some out →
        out.map (fun r => r.merged) =
          (prs.filter (fun pr => truthy pr.closed_at)).map
            (fun pr => truthy pr.merged_at)) ∧
    truthy (some "") = false ∧
    (some "" : Option String).isSome = true ∧
    truthy none = false :=
  ⟨compute_turnaround_merged_map, by decide, by decide, by decide⟩

/-- Witness for C9: the present-but-empty `merged_at` of `emptyMergedPR`
yields `merged = false`. -/
theorem c9_merged_truthiness_witness :
    ([emptyMergedRec] : List TurnaroundRecord).map (fun r => r.merged) =
      ([emptyMergedPR].filter (fun pr => truthy pr.closed_at)).map
        (fun pr => truthy pr.merged_at) ∧
    emptyMergedRec.merged = false :=
  ⟨c9_merged_truthiness.1 [emptyMergedPR] [emptyMergedRec] (by decide),
    by decide⟩

/-- C10: the Calculator is order-preserving — the output rows carry the
(number, title) pairs of the kept input records in their original relative
order. -/
theorem c10_order_preserving (prs : List RawPR)
    (out : List TurnaroundRecord) (h : compute_turnaround prs = some out) :
    out.map (fun r => (r.number, r.title)) =
      (prs.filter (fun pr => truthy pr.closed_at)).map
        (fun pr => (pr.number, pr.title)) := by
  have hs := compute_turnaround_shape prs out h
  have h2 := congrArg (List.map (fun t : Nat × String × Bool => (t.1, t.2.1))) hs
  simpa [List.map_map, Function.comp] using h2

/-- Witness for C10 on a three-record input whose middle record is
dropped. -/
theorem c10_order_preserving_witness :
    ([sampleRec, emptyMergedRec] : List TurnaroundRecord).map
        (fun r => (r.number, r.title)) =
      ([samplePR, openPR, emptyMergedPR].filter
          (fun pr => truthy pr.closed_at)).map
        (fun pr => (pr.number, pr.title)) :=
  c10_order_preserving [samplePR, openPR, emptyMergedPR]
    [sampleRec, emptyMergedRec] (by decide)

/-- If every label before `l` misses the color table and `l` hits it, the
mark color is `l`'s table color. -/
theorem markColor_first_match :
    ∀ (pre post : List String) (l c : String),
      (∀ x ∈ pre, List.lookup x LABEL_COLORS = none) →
      List.lookup l LABEL_COLORS = some c →
      markColor (pre ++ l :: post) = c := by
  intro pre
  induction pre with
  | nil =>
    intro post l c _ hl
    have hfind : (l :: post).find?
        (fun x => (List.lookup x LABEL_COLORS).isSome) = some l := by
      rw [List.find?_cons_of_pos]
      simp [hl]
    simp [markColor, hfind, hl]
  | cons y pre ih =>
    intro post l c hpre hl
    have hy : List.lookup y LABEL_COLORS = none := hpre y (by simp)
    have hpre2 : ∀ x ∈ pre, List.lookup x LABEL_COLORS = none :=
      fun x hx => hpre x (by simp [hx])
    have hrec := ih post l c hpre2 hl
    have hskip : ((y :: pre) ++ l :: post).find?
          (fun x => (List.lookup x LABEL_COLORS).isSome) =
        (pre ++ l :: post).find?
          (fun x => (List.lookup x LABEL_COLORS).isSome) := by
      rw [List.cons_append, List.find?_cons_of_neg]
      simp [hy]
    simp only [markColor] at hrec ⊢
    rw [hskip]
    exact hrec

/-- A record none of whose labels is a key of the color table gets the
default color. -/
theorem markColor_default :
    ∀ labels : List String,
      (∀ x ∈ labels, List.lookup x LABEL_COLORS = none) →
      markColor labels = "#4C72B0" := by
  intro labels h
  have hfind : labels.find?
      (fun x => (List.lookup x LABEL_COLORS).isSome) = none := by
    rw [List.find?_eq_none]
    intro x hx
    simp [h x hx]
  simp [markColor, hfind]
  decide

set_option maxRecDepth 8000 in
/-- C4: the Fetcher truncates its result to the requested limit and
requests at most `ceil(total_limit / per_page)` pages; with limit 150 and
page size 100 it requests exactly pages 1 and 2 and returns exactly 150
records even though page 2 returned 100. -/
theorem c4_limit_truncation :
    (∀ (pages : Nat → PageResponse) (per_page total_limit : Nat),
        0 < per_page →
        (fetch_prs_from_url pages per_page total_limit).length ≤
          total_limit ∧
        (fetchRequestedPages pages per_page total_limit).length ≤
          ⌈(total_limit : ℚ) / per_page⌉₊) ∧
    fetchRequestedPages c4Pages 100 150 = [1, 2] ∧
    (fetch_prs_from_url c4Pages 100 150).length = 150 ∧
    pageData c4Pages 2 = List.replicate 100 blankPR := by
  refine ⟨?_, by decide, by decide, by decide⟩
  intro pages P L hP
  constructor
  · exact List.length_take_le _ _
  · have h1 : (fetchRequestedPages pages P L).length ≤ (L + P - 1) / P :=
      fetchGo_reqPages_length pages L ((L + P - 1) / P) 1 []
    refine h1.trans ?_
    have hPQ : (0 : ℚ) < P := by exact_mod_cast hP
    have hle : (L : ℚ) / P ≤ ⌈(L : ℚ) / P⌉₊ := Nat.le_ceil _
    have hLc : (L : ℚ) ≤ (⌈(L : ℚ) / P⌉₊ : ℚ) * P := (div_le_iff₀ hPQ).mp hle
    have hLcN : L ≤ ⌈(L : ℚ) / P⌉₊ * P := by exact_mod_cast hLc
    set c := ⌈(L : ℚ) / P⌉₊ with hc
    set m := c * P with hm
    have h2 : L + P - 1 < (c + 1) * P := by
      rw [add_mul, one_mul, ← hm]
      omega
    have h3 : (L + P - 1) / P < c + 1 := (Nat.div_lt_iff_lt_mul hP).mpr h2
    omega

/-- Witness for the universal part of C4 at the concrete page oracle. -/
theorem c4_limit_truncation_witness :
    (fetch_prs_from_url c4Pages 100 150).length ≤ 150 ∧
    (fetchRequestedPages c4Pages 100 150).length ≤ ⌈(150 : ℚ) / 100⌉₊ :=
  c4_limit_truncation.1 c4Pages 100 150 (by decide)

/-- C5 (counterexample): page 1 returns a single record — fewer than
`per_page = 2`, and non-empty — yet the loop still requests page 2, so a
short page does not stop pagination. -/
theorem c5_short_page_counterexample :
    c5Pages 1 = PageResponse.ok [blankPR] ∧
    ([blankPR] : List RawPR).length < 2 ∧
    fetchRequestedPages c5Pages 2 10 = [1, 2] := by
  decide

/-- C5 (amended): only an empty page (or the limit, or a failure) stops
pagination: if page `k` returns zero records, no page beyond `k` is ever
requested, even when the limit has not been reached; and the result never
exceeds the limit.  A non-empty page shorter than `per_page` does not stop
the loop. -/
theorem c5_empty_page_stops (pages : Nat → PageResponse)
    (per_page total_limit k : Nat) (hk1 : 1 ≤ k)
    (hk : pages k = PageResponse.ok []) :
    (∀ j ∈ fetchRequestedPages pages per_page total_limit, j ≤ k) ∧
    (fetch_prs_from_url pages per_page total_limit).length ≤ total_limit := by
  constructor
  · intro j hj
    exact fetchGo_stops_at pages total_limit k (Or.inl hk)
      ((total_limit + per_page - 1) / per_page) 1 [] hk1 j hj
  · exact List.length_take_le _ _

/-- Witness for C5 (amended): the empty page 2 of `c5Pages` caps the
requested pages at 2. -/
theorem c5_empty_page_stops_witness :
    (∀ j ∈ fetchRequestedPages c5Pages 2 10, j ≤ 2) ∧
    (fetch_prs_from_url c5Pages 2 10).length ≤ 10 :=
  c5_empty_page_stops c5Pages 2 10 2 (by decide) (by decide)

/-- C6: when a requested page fails with a non-success status, the loop
surfaces `Error: <status> - <body>`, requests no page beyond the failing
one, requests every page at most once (no retry), and still returns
exactly the records accumulated from the pages before the failure. -/
theorem c6_fail_behaviour (pages : Nat → PageResponse)
    (per_page total_limit k s : Nat) (b : String) (hP : 0 < per_page)
    (hk : pages k = PageResponse.fail s b)
    (hreq : k ∈ fetchRequestedPages pages per_page total_limit) :
    fetchError pages per_page total_limit = some (fetchErrMsg s b) ∧
    fetchErrMsg s b = "Error: " ++ toString s ++ " - " ++ b ∧
    (∀ j ∈ fetchRequestedPages pages per_page total_limit, j ≤ k) ∧
    (fetchRequestedPages pages per_page total_limit).Nodup ∧
    fetch_prs_from_url pages per_page total_limit =
      (List.range' 1 (k - 1)).flatMap (pageData pages) := by
  have hreq2 : k ∈ (fetchGo pages total_limit
      ((total_limit + per_page - 1) / per_page) 1 []).reqPages := hreq
  obtain ⟨n, hn, _⟩ := fetchGo_reqPages_range' pages total_limit
    ((total_limit + per_page - 1) / per_page) 1 []
  have hk1 : 1 ≤ k := by
    rw [hn] at hreq2
    have h2 := List.mem_range'_1.mp (show k ∈ List.range' 1 n from hreq2)
    omega
  have hL : 0 < total_limit := by
    by_contra hL0
    have hL00 : total_limit = 0 := by omega
    have hfuel : (total_limit + per_page - 1) / per_page = 0 := by
      rw [hL00]
      exact Nat.div_eq_of_lt (by omega)
    rw [hfuel] at hreq2
    simp [fetchGo] at hreq2
  obtain ⟨herr, hprs, hlen⟩ := fetchGo_fail_spec pages total_limit k s b hk
    ((total_limit + per_page - 1) / per_page) 1 [] (by simpa using hL) hreq2
  refine ⟨herr, ?_, ?_, ?_, ?_⟩
  · show ("Error: " ++ toString s ++ " - " ++ b) ++ "" =
      "Error: " ++ toString s ++ " - " ++ b
    exact String.append_empty _
  · intro j hj
    exact fetchGo_stops_at pages total_limit k (Or.inr ⟨s, b, hk⟩)
      ((total_limit + per_page - 1) / per_page) 1 [] hk1 j hj
  · show (fetchGo pages total_limit
        ((total_limit + per_page - 1) / per_page) 1 []).reqPages.Nodup
    rw [hn]
    exact List.nodup_range' _ _
  · show (fetchGo pages total_limit
        ((total_limit + per_page - 1) / per_page) 1 []).prs.take total_limit =
      (List.range' 1 (k - 1)).flatMap (pageData pages)
    rw [List.take_of_length_le (le_of_lt hlen), hprs]
    simp

/-- Witness for C6: page 2 of `c6Pages` fails with status 403 after a
successful page 1. -/
theorem c6_fail_behaviour_witness :
    fetchError c6Pages 2 10 = some (fetchErrMsg 403 "rate limited") ∧
    fetchErrMsg 403 "rate limited" =
      "Error: " ++ toString (403 : Nat) ++ " - " ++ "rate limited" ∧
    (∀ j ∈ fetchRequestedPages c6Pages 2 10, j ≤ 2) ∧
    (fetchRequestedPages c6Pages 2 10).Nodup ∧
    fetch_prs_from_url c6Pages 2 10 =
      (List.range' 1 (2 - 1)).flatMap (pageData c6Pages) :=
  c6_fail_behaviour c6Pages 2 10 2 403 "rate limited" (by decide)
    (by decide) (by decide)

/-- C7: when the merged subset is empty, the mean, median, min and max of
turnaround-hours are all NaN (`none`), never `0`, and the merged count is
`0`; `none` is distinguishable from every genuine numeric value. -/
theorem c7_empty_merged_nan (df : List TurnaroundRecord)
    (h : df.filter (fun r => r.merged) = []) :
    (summarize df).meanH = none ∧ (summarize df).medianH = none ∧
    (summarize df).minH = none ∧ (summarize df).maxH = none ∧
    (∀ q : ℚ, (summarize df).meanH ≠ some q) ∧
    (summarize df).mergedCount = 0 := by
  simp [summarize, h, pandasMean, pandasMedian]

/-- Witness for C7 on a one-record table whose record is unmerged. -/
theorem c7_empty_merged_nan_witness :
    (summarize [closedUnmergedRec]).meanH = none ∧
    (summarize [closedUnmergedRec]).medianH = none ∧
    (summarize [closedUnmergedRec]).minH = none ∧
    (summarize [closedUnmergedRec]).maxH = none ∧
    (∀ q : ℚ, (summarize [closedUnmergedRec]).meanH ≠ some q) ∧
    (summarize [closedUnmergedRec]).mergedCount = 0 :=
  c7_empty_merged_nan [closedUnmergedRec] (by decide)

/-- C8: the mark color is the table color of the first label, in the
record's own label order, that is a key of `LABEL_COLORS`; a record none
of whose labels is a key gets the default color `#4C72B0`. -/
theorem c8_mark_color :
    (∀ (pre post : List String) (l c : String),
        (∀ x ∈ pre, List.lookup x LABEL_COLORS = none) →
        List.lookup l LABEL_COLORS = some c →
        markColor (pre ++ l :: post) = c) ∧
    (∀ labels : List String,
        (∀ x ∈ labels, List.lookup x LABEL_COLORS = none) →
        markColor labels = "#4C72B0") :=
  ⟨markColor_first_match, markColor_default⟩

/-- Witness for C8: `documentation` is the first recognized label and wins
over the later `bug`; an unrecognized label list gets the default. -/
theorem c8_mark_color_witness :
    markColor (["unknown"] ++ "documentation" :: ["bug"]) = "#988ED5" ∧
    markColor ["x", "y"] = "#4C72B0" :=
  ⟨c8_mark_color.1 ["unknown"] ["bug"] ("documentation") ("#988ED5")
      (by decide) (by decide),
    c8_mark_color.2 ["x", "y"] (by decide)⟩
